import Mathlib

/-!
Verification of the luna16 repository's two core infrastructure subsystems
against their specification: the Service Registry (lazily-initialized typed
dependency container with deferred creation, idempotent caching, ordered
teardown) and the Message Dispatcher (typed publish/multi-subscribe fan-out).

The registry implementation (`services/service_container.py`) and the message
module (`message_handler/messages.py`) are not among the provided source
files; only their callers, the handler table
(`message_handler/handlers/__init__.py`) and the trainers
(`training/trainers.py`) are.  Definitions for those missing parts are
modelled from the specification, and marked as such; the handler table and
the trainer control flow are embedded from the source.

Conventions of the embedding: service types are identified by `Nat` keys,
service instances are opaque `Nat` handles, creator context is an association
list of string keys to string values, and cleanup hooks / handlers may fail
with a `String` payload (modelling a raised Python exception).  Stateful
Python methods become explicit state-passing functions on the
`ServiceContainer` structure.
-/

namespace Luna16

/-- Creator context: the keyword arguments forwarded by `call_all_creators`
(e.g. training run name and start timestamp), as an association list. -/
abbrev Ctx := List (String × String)

/-- Service instances are modelled as opaque numeric handles; equality of
handles models Python object identity for the cache-identity properties. -/
abbrev Inst := Nat

/-- Modelled from the spec: a Registry Entry binds a service type to either
an already-built `inst?` or a `creator?` function, plus an optional
`cleanup?` hook.  `creatorCalls` counts creator invocations (observability
for the "creator invoked exactly once" property) and `closed` records the
per-entry `Resolved -> Closed` transition of the entry state machine. -/
structure Entry where
  inst? : Option Inst
  creator? : Option (Ctx → Inst)
  cleanup? : Option (Inst → Except String Unit)
  creatorCalls : Nat
  closed : Bool

/-- Modelled from the spec: the Service Registry owns a mapping from service
type to Registry Entry, kept as an association list in registration order
(the documented deterministic teardown order). -/
structure ServiceContainer where
  entries : List (Nat × Entry)

/-- Look up the entry registered for key `k` (first occurrence). -/
def findEntry (k : Nat) : List (Nat × Entry) → Option Entry
  | [] => none
  | (k', e) :: rest => if k' = k then some e else findEntry k rest

/-- Replace the entry for `k` if present (keeping registration order),
otherwise append it at the end. -/
def setEntry (k : Nat) (e : Entry) : List (Nat × Entry) → List (Nat × Entry)
  | [] => [(k, e)]
  | (k', e') :: rest =>
    if k' = k then (k, e) :: rest else (k', e') :: setEntry k e rest

/-- Errors raised by the Service Registry, per the spec's taxonomy. -/
inductive RegistryError
  | unregisteredService (k : Nat)
deriving DecidableEq

/-- Modelled from the spec: `register_creator(service_type, creator,
on_registry_close)` stores an entry with the creator set and no instance;
no side effect until resolution. -/
def register_creator (st : ServiceContainer) (k : Nat) (c : Ctx → Inst)
    (cl : Option (Inst → Except String Unit)) : ServiceContainer :=
  { entries :=
      setEntry k { inst? := none, creator? := some c, cleanup? := cl,
                   creatorCalls := 0, closed := false } st.entries }

/-- Modelled from the spec: `register_service(service_type, instance)` stores
an already-constructed value directly as the instance. -/
def register_service (st : ServiceContainer) (k : Nat) (i : Inst) :
    ServiceContainer :=
  { entries :=
      setEntry k { inst? := some i, creator? := none, cleanup? := none,
                   creatorCalls := 0, closed := false } st.entries }

/-- Modelled from the spec: `get_service(service_type)` returns the cached
instance if present; otherwise invokes the creator exactly once, stores the
result, and returns it; fails with `UnregisteredServiceError` for a
never-registered type. -/
def get_service (st : ServiceContainer) (k : Nat) :
    Except RegistryError Inst × ServiceContainer :=
  match findEntry k st.entries with
  | none => (Except.error (RegistryError.unregisteredService k), st)
  | some e =>
    match e.inst? with
    | some i => (Except.ok i, st)
    | none =>
      match e.creator? with
      | some c =>
        let i := c []
        (Except.ok i,
         { entries :=
             setEntry k { e with inst? := some i,
                                 creatorCalls := e.creatorCalls + 1 }
               st.entries })
      | none => (Except.error (RegistryError.unregisteredService k), st)

/-- Number of times key `k`'s creator has been invoked in state `st`. -/
def creatorCallCount (st : ServiceContainer) (k : Nat) : Nat :=
  match findEntry k st.entries with
  | none => 0
  | some e => e.creatorCalls

theorem findEntry_setEntry_self (k : Nat) (e : Entry)
    (l : List (Nat × Entry)) : findEntry k (setEntry k e l) = some e := by
  induction l with
  | nil => simp [setEntry, findEntry]
  | cons hd tl ih =>
    obtain ⟨k', e'⟩ := hd
    by_cases h : k' = k
    · simp [setEntry, findEntry, h]
    · simp [setEntry, findEntry, h, ih]

/-- Claim C1: For every service type registered via `register_creator`, calling
`get_service` twice returns the identical instance, invokes the creator
exactly once, and the second call leaves the registry untouched (it never
rebuilds the service). -/
theorem get_service_identity_cache (st : ServiceContainer) (k : Nat)
    (c : Ctx → Inst) (cl : Option (Inst → Except String Unit)) :
    (get_service (register_creator st k c cl) k).1 = Except.ok (c []) ∧
    (get_service ((get_service (register_creator st k c cl) k).2) k).1
      = (get_service (register_creator st k c cl) k).1 ∧
    (get_service ((get_service (register_creator st k c cl) k).2) k).2
      = (get_service (register_creator st k c cl) k).2 ∧
    creatorCallCount
      ((get_service ((get_service (register_creator st k c cl) k).2) k).2) k
      = 1 := by
  have h0 :
      findEntry k (register_creator st k c cl).entries
        = some { inst? := none, creator? := some c, cleanup? := cl,
                 creatorCalls := 0, closed := false } :=
    findEntry_setEntry_self ..
  have h1 :
      get_service (register_creator st k c cl) k
        = (Except.ok (c []),
           { entries :=
               setEntry k { inst? := some (c []), creator? := some c,
                            cleanup? := cl, creatorCalls := 1,
                            closed := false }
                 (register_creator st k c cl).entries }) := by
    simp [get_service, h0]
  have h2 :
      findEntry k
        (setEntry k { inst? := some (c []), creator? := some c,
                      cleanup? := cl, creatorCalls := 1, closed := false }
          (register_creator st k c cl).entries)
        = some { inst? := some (c []), creator? := some c, cleanup? := cl,
                 creatorCalls := 1, closed := false } :=
    findEntry_setEntry_self ..
  have h3 :
      get_service ((get_service (register_creator st k c cl) k).2) k
        = (Except.ok (c []), (get_service (register_creator st k c cl) k).2) := by
    rw [h1]
    simp [get_service, h2]
  refine ⟨by rw [h1], ?_, ?_, ?_⟩
  · rw [h3, h1]
  · rw [h3]
  · rw [h3, h1]
    simp [creatorCallCount, h2]

/-- Claim C2: `get_service` on a never-registered service type fails with
`UnregisteredServiceError` (and returns the state unchanged — no default is
produced). -/
theorem get_service_unregistered (st : ServiceContainer) (k : Nat)
    (h : findEntry k st.entries = none) :
    get_service st k
      = (Except.error (RegistryError.unregisteredService k), st) := by
  simp [get_service, h]

/-- Witness for C2: the empty registry has no entry for key 0, and
`get_service` fails there with `UnregisteredServiceError`. -/
theorem get_service_unregistered_witness :
    get_service ⟨[]⟩ 0
      = (Except.error (RegistryError.unregisteredService 0), ⟨[]⟩) :=
  get_service_unregistered ⟨[]⟩ 0 rfl

/-- Modelled from the spec: `call_all_creators(**context)` eagerly resolves
every still-unresolved creator-backed entry, passing the shared context to
each creator. -/
def call_all_creators (st : ServiceContainer) (ctx : Ctx) : ServiceContainer :=
  { entries :=
      st.entries.map fun p =>
        match p.2.inst?, p.2.creator? with
        | none, some c =>
          (p.1, { p.2 with inst? := some (c ctx),
                           creatorCalls := p.2.creatorCalls + 1 })
        | _, _ => p }

/-- Result of `close_all_services`: the keys whose cleanup hook was invoked
(in teardown order), the collected cleanup failures, and the registry state
afterwards. -/
structure CloseResult where
  calls : List Nat
  failures : List (Nat × String)
  st : ServiceContainer

/-- Modelled from the spec: the teardown loop over the entries in
registration order.  An entry whose instance was resolved and not yet closed
has its cleanup hook (if any) invoked; a failure is collected and the loop
continues; the entry is marked closed either way.  Unresolved or
already-closed entries are skipped. -/
def closeEntries :
    List (Nat × Entry) → List Nat × List (Nat × String) × List (Nat × Entry)
  | [] => ([], [], [])
  | (k, e) :: rest =>
    let r := closeEntries rest
    match e.inst? with
    | none => (r.1, r.2.1, (k, e) :: r.2.2)
    | some i =>
      if e.closed then (r.1, r.2.1, (k, e) :: r.2.2)
      else
        match e.cleanup? with
        | none => (r.1, r.2.1, (k, { e with closed := true }) :: r.2.2)
        | some f =>
          match f i with
          | Except.ok _ =>
            (k :: r.1, r.2.1, (k, { e with closed := true }) :: r.2.2)
          | Except.error msg =>
            (k :: r.1, (k, msg) :: r.2.1,
             (k, { e with closed := true }) :: r.2.2)

/-- Modelled from the spec: `close_all_services()` runs the teardown loop and
reports which cleanup hooks ran, which failed, and the closed state. -/
def close_all_services (st : ServiceContainer) : CloseResult :=
  match closeEntries st.entries with
  | (calls, fails, es) => ⟨calls, fails, ⟨es⟩⟩

/-- Modelled from the spec: `CleanupAggregateError` collects all exceptions
raised by cleanup hooks, reported once at the end after every hook has been
attempted; no error when every hook succeeded. -/
def cleanupAggregate (r : CloseResult) : Except (List (Nat × String)) Unit :=
  if r.failures.isEmpty then Except.ok () else Except.error r.failures

/-- An entry whose cleanup hook must be attempted by teardown: resolved, not
yet closed, with a hook present. -/
def resolvedPendingCleanup (p : Nat × Entry) : Bool :=
  p.2.inst?.isSome && !p.2.closed && p.2.cleanup?.isSome

/-- Keys of all entries whose cleanup hook teardown must attempt, in order. -/
def attemptedKeys (es : List (Nat × Entry)) : List Nat :=
  (es.filter resolvedPendingCleanup).map Prod.fst

/-- The cleanup failure an entry would contribute, if its hook raises. -/
def cleanupFailure (p : Nat × Entry) : Option (Nat × String) :=
  match p.2.inst?, p.2.cleanup? with
  | some i, some f =>
    if p.2.closed then none
    else
      match f i with
      | Except.error msg => some (p.1, msg)
      | Except.ok _ => none
  | _, _ => none

/-- All cleanup failures the entries would produce, in order. -/
def cleanupFailures (es : List (Nat × Entry)) : List (Nat × String) :=
  es.filterMap cleanupFailure

/-- Test fixture: a resolved entry with handle `i` whose cleanup hook
raises `msg` (a recorder-style failing cleanup). -/
def failingEntry (i : Inst) (msg : String) : Entry :=
  { inst? := some i, creator? := none,
    cleanup? := some fun _ => Except.error msg,
    creatorCalls := 0, closed := false }

/-- Test fixture: a resolved entry with handle `i` whose cleanup hook
succeeds. -/
def okEntry (i : Inst) : Entry :=
  { inst? := some i, creator? := none,
    cleanup? := some fun _ => Except.ok (),
    creatorCalls := 0, closed := false }

/-- Test fixture: an unresolved creator-backed entry with a cleanup hook. -/
def unresolvedEntry : Entry :=
  { inst? := none, creator? := some fun _ => 10,
    cleanup? := some fun _ => Except.ok (),
    creatorCalls := 0, closed := false }

/-- Claim C5: Even when some cleanup hooks raise, `close_all_services` still
attempts the hook of every remaining resolved entry (no early abort), and
the aggregate error collects every failing entry with its exception —
nothing is swallowed and the loop never stops early. -/
theorem close_all_services_no_early_abort (st : ServiceContainer) :
    (close_all_services st).calls = attemptedKeys st.entries ∧
    (close_all_services st).failures = cleanupFailures st.entries ∧
    (cleanupFailures st.entries ≠ [] →
      cleanupAggregate (close_all_services st)
        = Except.error (cleanupFailures st.entries)) := by
  have hAcons : ∀ (p : Nat × Entry) (es : List (Nat × Entry)),
      attemptedKeys (p :: es)
        = if resolvedPendingCleanup p then p.1 :: attemptedKeys es
          else attemptedKeys es := by
    intro p es
    by_cases h : resolvedPendingCleanup p <;>
      simp [attemptedKeys, List.filter_cons, h]
  have hFcons : ∀ (p : Nat × Entry) (es : List (Nat × Entry)),
      cleanupFailures (p :: es)
        = (cleanupFailure p).toList ++ cleanupFailures es := by
    intro p es
    match h : cleanupFailure p with
    | none => simp [cleanupFailures, List.filterMap_cons, h]
    | some x => simp [cleanupFailures, List.filterMap_cons, h]
  have main : ∀ es : List (Nat × Entry),
      (closeEntries es).1 = attemptedKeys es ∧
      (closeEntries es).2.1 = cleanupFailures es := by
    intro es
    induction es with
    | nil => simp [closeEntries, attemptedKeys, cleanupFailures]
    | cons hd tl ih =>
      obtain ⟨k, e⟩ := hd
      match hinst : e.inst? with
      | none =>
        have hA : resolvedPendingCleanup (k, e) = false := by
          simp [resolvedPendingCleanup, hinst]
        have hF : cleanupFailure (k, e) = none := by
          simp [cleanupFailure, hinst]
        rw [hAcons, hFcons, hA, hF]
        simp [closeEntries, hinst, ih.1, ih.2]
      | some i =>
        by_cases hc : e.closed
        · have hA : resolvedPendingCleanup (k, e) = false := by
            simp [resolvedPendingCleanup, hc]
          have hF : cleanupFailure (k, e) = none := by
            cases hcl : e.cleanup? <;> simp [cleanupFailure, hinst, hc, hcl]
          rw [hAcons, hFcons, hA, hF]
          simp [closeEntries, hinst, hc, ih.1, ih.2]
        · match hcl : e.cleanup? with
          | none =>
            have hA : resolvedPendingCleanup (k, e) = false := by
              simp [resolvedPendingCleanup, hcl]
            have hF : cleanupFailure (k, e) = none := by
              simp [cleanupFailure, hinst, hcl]
            rw [hAcons, hFcons, hA, hF]
            simp [closeEntries, hinst, hc, hcl, ih.1, ih.2]
          | some f =>
            match hf : f i with
            | Except.ok u =>
              have hA : resolvedPendingCleanup (k, e) = true := by
                simp [resolvedPendingCleanup, hinst, hc, hcl]
              have hF : cleanupFailure (k, e) = none := by
                simp [cleanupFailure, hinst, hc, hcl, hf]
              rw [hAcons, hFcons, hA, hF]
              simp [closeEntries, hinst, hc, hcl, hf, ih.1, ih.2]
            | Except.error msg =>
              have hA : resolvedPendingCleanup (k, e) = true := by
                simp [resolvedPendingCleanup, hinst, hc, hcl]
              have hF : cleanupFailure (k, e) = some (k, msg) := by
                simp [cleanupFailure, hinst, hc, hcl, hf]
              rw [hAcons, hFcons, hA, hF]
              simp [closeEntries, hinst, hc, hcl, hf, ih.1, ih.2]
  have h := main st.entries
  have hcalls : (close_all_services st).calls = (closeEntries st.entries).1 := by
    simp [close_all_services]
  have hfails :
      (close_all_services st).failures = (closeEntries st.entries).2.1 := by
    simp [close_all_services]
  refine ⟨hcalls.trans h.1, hfails.trans h.2, ?_⟩
  intro hne
  simp [cleanupAggregate, hfails.trans h.2, hne]

/-- Witness for C5: a registry with three resolved entries whose first and
third cleanup hooks raise; teardown still attempts all three, and the
aggregate error names entries 1 and 3. -/
theorem close_all_services_no_early_abort_witness :
    (close_all_services
        ⟨[(1, failingEntry 10 "a"), (2, okEntry 20),
          (3, failingEntry 30 "b")]⟩).calls = [1, 2, 3] ∧
    cleanupAggregate
        (close_all_services
          ⟨[(1, failingEntry 10 "a"), (2, okEntry 20),
            (3, failingEntry 30 "b")]⟩)
      = Except.error [(1, "a"), (3, "b")] := by
  have h := close_all_services_no_early_abort
    ⟨[(1, failingEntry 10 "a"), (2, okEntry 20), (3, failingEntry 30 "b")]⟩
  refine ⟨?_, ?_⟩
  · rw [h.1]
    rfl
  · rw [h.2.2 (by simp [cleanupFailures, cleanupFailure, failingEntry])]
    rfl

/-- Claim C6: `close_all_services` invokes a cleanup hook only for entries
whose instance was actually resolved, and it never invokes a creator: an
unresolved creator-backed entry produces no cleanup call and is not
constructed just to be destroyed (every entry's creator-invocation count is
unchanged by teardown). -/
theorem close_cleanup_only_resolved (st : ServiceContainer) :
    (∀ k, k ∈ (close_all_services st).calls →
      ∃ e, (k, e) ∈ st.entries ∧ e.inst?.isSome = true) ∧
    (close_all_services st).st.entries.map (fun p => (p.1, p.2.creatorCalls))
      = st.entries.map (fun p => (p.1, p.2.creatorCalls)) := by
  have main : ∀ es : List (Nat × Entry),
      (∀ k, k ∈ (closeEntries es).1 →
        ∃ e, (k, e) ∈ es ∧ e.inst?.isSome = true) ∧
      (closeEntries es).2.2.map (fun p => (p.1, p.2.creatorCalls))
        = es.map (fun p => (p.1, p.2.creatorCalls)) := by
    intro es
    induction es with
    | nil => simp [closeEntries]
    | cons hd tl ih =>
      obtain ⟨k0, e⟩ := hd
      match hinst : e.inst? with
      | none =>
        refine ⟨?_, by simp [closeEntries, hinst, ih.2]⟩
        intro k hk
        simp [closeEntries, hinst] at hk
        obtain ⟨e', he', hi⟩ := ih.1 k hk
        exact ⟨e', List.mem_cons_of_mem _ he', hi⟩
      | some i =>
        by_cases hc : e.closed
        · refine ⟨?_, by simp [closeEntries, hinst, hc, ih.2]⟩
          intro k hk
          simp [closeEntries, hinst, hc] at hk
          obtain ⟨e', he', hi⟩ := ih.1 k hk
          exact ⟨e', List.mem_cons_of_mem _ he', hi⟩
        · match hcl : e.cleanup? with
          | none =>
            refine ⟨?_, by simp [closeEntries, hinst, hc, hcl, ih.2]⟩
            intro k hk
            simp [closeEntries, hinst, hc, hcl] at hk
            obtain ⟨e', he', hi⟩ := ih.1 k hk
            exact ⟨e', List.mem_cons_of_mem _ he', hi⟩
          | some f =>
            have step : ∀ calls' fails',
                closeEntries ((k0, e) :: tl) = (k0 :: (closeEntries tl).1,
                  calls', fails') →
                (∀ k, k ∈ (closeEntries ((k0, e) :: tl)).1 →
                  ∃ e', (k, e') ∈ (k0, e) :: tl ∧ e'.inst?.isSome = true) := by
              intro calls' fails' hEq k hk
              rw [hEq] at hk
              rcases List.mem_cons.1 hk with hk0 | hkt
              · exact ⟨e, by simp [hk0], by simp [hinst]⟩
              · obtain ⟨e', he', hi⟩ := ih.1 k hkt
                exact ⟨e', List.mem_cons_of_mem _ he', hi⟩
            match hf : f i with
            | Except.ok u =>
              have hEq : closeEntries ((k0, e) :: tl)
                  = (k0 :: (closeEntries tl).1, (closeEntries tl).2.1,
                     (k0, { e with closed := true })
                       :: (closeEntries tl).2.2) := by
                simp [closeEntries, hinst, hc, hcl, hf]
              exact ⟨step _ _ hEq, by rw [hEq]; simp [ih.2]⟩
            | Except.error msg =>
              have hEq : closeEntries ((k0, e) :: tl)
                  = (k0 :: (closeEntries tl).1,
                     (k0, msg) :: (closeEntries tl).2.1,
                     (k0, { e with closed := true })
                       :: (closeEntries tl).2.2) := by
                simp [closeEntries, hinst, hc, hcl, hf]
              exact ⟨step _ _ hEq, by rw [hEq]; simp [ih.2]⟩
  have h := main st.entries
  have hcalls :
      (close_all_services st).calls = (closeEntries st.entries).1 := by
    simp [close_all_services]
  have hst :
      (close_all_services st).st.entries = (closeEntries st.entries).2.2 := by
    simp [close_all_services]
  exact ⟨fun k hk => h.1 k (hcalls ▸ hk), by rw [hst]; exact h.2⟩

/-- Witness for C6: in a registry with one unresolved creator-backed entry
(with a cleanup hook) and one resolved entry, teardown calls cleanup only
for the resolved entry and invokes no creator. -/
theorem close_cleanup_only_resolved_witness :
    (∀ k, k ∈ (close_all_services
        ⟨[(1, unresolvedEntry), (2, okEntry 20)]⟩).calls →
      ∃ e, (k, e) ∈ [(1, unresolvedEntry), (2, okEntry 20)] ∧
        e.inst?.isSome = true) ∧
    (close_all_services
        ⟨[(1, unresolvedEntry), (2, okEntry 20)]⟩).st.entries.map
        (fun p => (p.1, p.2.creatorCalls))
      = [(1, 0), (2, 0)] :=
  ⟨(close_cleanup_only_resolved
      ⟨[(1, unresolvedEntry), (2, okEntry 20)]⟩).1,
   ((close_cleanup_only_resolved
      ⟨[(1, unresolvedEntry), (2, okEntry 20)]⟩).2.trans (by rfl))⟩

/-- Claim C7: `close_all_services` is idempotent: a second call invokes no
further cleanup hooks, reports no failure, and leaves the state unchanged,
so each resolved instance's cleanup runs exactly once. -/
theorem close_all_services_idempotent (st : ServiceContainer) :
    (close_all_services (close_all_services st).st).calls = [] ∧
    (close_all_services (close_all_services st).st).failures = [] ∧
    (close_all_services (close_all_services st).st).st
      = (close_all_services st).st := by
  have main : ∀ es : List (Nat × Entry),
      closeEntries (closeEntries es).2.2 = ([], [], (closeEntries es).2.2) := by
    intro es
    induction es with
    | nil => simp [closeEntries]
    | cons hd tl ih =>
      obtain ⟨k0, e⟩ := hd
      match hinst : e.inst? with
      | none => simp [closeEntries, hinst, ih]
      | some i =>
        by_cases hc : e.closed
        · simp [closeEntries, hinst, hc, ih]
        · match hcl : e.cleanup? with
          | none => simp [closeEntries, hinst, hc, hcl, ih]
          | some f =>
            match hf : f i with
            | Except.ok u => simp [closeEntries, hinst, hc, hcl, hf, ih]
            | Except.error msg => simp [closeEntries, hinst, hc, hcl, hf, ih]
  have hst :
      (close_all_services st).st.entries = (closeEntries st.entries).2.2 := by
    simp [close_all_services]
  have h := main st.entries
  refine ⟨?_, ?_, ?_⟩ <;>
    simp [close_all_services, hst, h]

/-- The message types of the closed event set, from
`message_handler/handlers/__init__.py` (keys of `LOG_MESSAGE_HANDLERS`). -/
inductive MessageType
  | LogStart
  | LogMetrics
  | LogEpoch
  | LogBatch
  | LogBatchStart
  | LogBatchEnd
  | LogResult
  | LogImages
  | LogModel
deriving DecidableEq

/-- The handler functions of the shipped handler table, from
`message_handler/handlers/handlers.py` and `ct_image_handlers.py`. -/
inductive HandlerId
  | log_start_to_console
  | log_metrics_to_console
  | log_metrics_to_tensorboard
  | log_metrics_to_mlflow
  | log_epoch_to_console
  | log_batch_start_to_console
  | log_batch_end_to_console
  | log_results_to_tensorboard
  | log_images_to_tensorboard
  | log_model_to_mlflow
deriving DecidableEq

/-- A handler table: message type to ordered handler sequence, as an
association list (a type absent from the list is unregistered). -/
abbrev MessageHandlersConfig := List (MessageType × List HandlerId)

/-- The shipped handler table `LOG_MESSAGE_HANDLERS`, embedded entry by
entry from `message_handler/handlers/__init__.py` in source order. -/
def LOG_MESSAGE_HANDLERS : MessageHandlersConfig :=
  [(MessageType.LogStart, [HandlerId.log_start_to_console]),
   (MessageType.LogMetrics,
     [HandlerId.log_metrics_to_console,
      HandlerId.log_metrics_to_tensorboard,
      HandlerId.log_metrics_to_mlflow]),
   (MessageType.LogEpoch, [HandlerId.log_epoch_to_console]),
   (MessageType.LogBatch, []),
   (MessageType.LogBatchStart, [HandlerId.log_batch_start_to_console]),
   (MessageType.LogBatchEnd, [HandlerId.log_batch_end_to_console]),
   (MessageType.LogResult, [HandlerId.log_results_to_tensorboard]),
   (MessageType.LogImages, [HandlerId.log_images_to_tensorboard]),
   (MessageType.LogModel, [HandlerId.log_model_to_mlflow])]

/-- Look up the handler sequence registered for a message type. -/
def lookupHandlers (t : MessageType) :
    MessageHandlersConfig → Option (List HandlerId)
  | [] => none
  | (t', hs) :: rest => if t' = t then some hs else lookupHandlers t rest

/-- Errors raised by the Message Dispatcher, per the spec's taxonomy. -/
inductive DispatchError
  | noHandlersRegistered (t : MessageType)
  | handlerExecution (h : HandlerId) (e : String)
deriving DecidableEq

/-- Run a handler sequence synchronously in order against a handler
behaviour `behav` (what each handler does when invoked: succeed, or raise a
`String` exception).  Returns the trace of handlers actually invoked and the
outcome; a raised exception stops the fan-out and is wrapped as
`HandlerExecutionError` — no catch-and-continue, no retry. -/
def runHandlers (behav : HandlerId → Except String Unit) :
    List HandlerId → List HandlerId × Except DispatchError Unit
  | [] => ([], Except.ok ())
  | h :: rest =>
    match behav h with
    | Except.error e => ([h], Except.error (DispatchError.handlerExecution h e))
    | Except.ok _ =>
      let r := runHandlers behav rest
      (h :: r.1, r.2)

/-- Modelled from the spec: `handle_message(message)` looks up the message's
type in the handler table; fails with `NoHandlersRegisteredError` only if
the type is entirely absent; otherwise invokes each registered handler in
table order, synchronously. -/
def handle_message (cfg : MessageHandlersConfig)
    (behav : HandlerId → Except String Unit) (t : MessageType) :
    List HandlerId × Except DispatchError Unit :=
  match lookupHandlers t cfg with
  | none => ([], Except.error (DispatchError.noHandlersRegistered t))
  | some hs => runHandlers behav hs

/-- Claim C3: For a message type registered with handler sequence
`[h1, ..., hn]`, one `handle_message` call invokes exactly those handlers,
each once, synchronously, in table order (the invocation trace is the
registered sequence itself). -/
theorem handle_message_in_table_order (cfg : MessageHandlersConfig)
    (behav : HandlerId → Except String Unit) (t : MessageType)
    (hs : List HandlerId) (h1 : lookupHandlers t cfg = some hs)
    (h2 : ∀ h ∈ hs, behav h = Except.ok ()) :
    handle_message cfg behav t = (hs, Except.ok ()) := by
  have main : ∀ l : List HandlerId, (∀ h ∈ l, behav h = Except.ok ()) →
      runHandlers behav l = (l, Except.ok ()) := by
    intro l
    induction l with
    | nil => intro _; rfl
    | cons h rest ih =>
      intro hall
      have hh : behav h = Except.ok () := hall h (List.mem_cons_self ..)
      have hr := ih fun x hx => hall x (List.mem_cons_of_mem _ hx)
      simp [runHandlers, hh, hr]
  simp [handle_message, h1, main hs h2]

/-- Witness for C3: dispatching a metrics message against the shipped table
with all handlers succeeding invokes exactly the console handler first, then
the tensorboard and mlflow backend handlers, each once. -/
theorem handle_message_in_table_order_witness :
    handle_message LOG_MESSAGE_HANDLERS (fun _ => Except.ok ())
        MessageType.LogMetrics
      = ([HandlerId.log_metrics_to_console,
          HandlerId.log_metrics_to_tensorboard,
          HandlerId.log_metrics_to_mlflow], Except.ok ()) :=
  handle_message_in_table_order LOG_MESSAGE_HANDLERS (fun _ => Except.ok ())
    MessageType.LogMetrics
    [HandlerId.log_metrics_to_console,
     HandlerId.log_metrics_to_tensorboard,
     HandlerId.log_metrics_to_mlflow]
    (by rfl) (fun _ _ => rfl)

/-- Claim C4: `handle_message` fails with `NoHandlersRegisteredError` exactly
when the message's type is absent from the table; a type registered with an
empty handler tuple — `LogBatch` in the shipped table — is a no-op: no
exception, no handler invoked. -/
theorem handle_message_empty_tuple_no_op (cfg : MessageHandlersConfig)
    (behav : HandlerId → Except String Unit) (t : MessageType) :
    ((handle_message cfg behav t).2
        = Except.error (DispatchError.noHandlersRegistered t)
      ↔ lookupHandlers t cfg = none) ∧
    handle_message LOG_MESSAGE_HANDLERS behav MessageType.LogBatch
      = ([], Except.ok ()) := by
  constructor
  · constructor
    · intro hres
      match hl : lookupHandlers t cfg with
      | none => rfl
      | some hs =>
        exfalso
        have never : ∀ l : List HandlerId,
            (runHandlers behav l).2
              ≠ Except.error (DispatchError.noHandlersRegistered t) := by
          intro l
          induction l with
          | nil => simp [runHandlers]
          | cons h rest ih =>
            match hb : behav h with
            | Except.error e => simp [runHandlers, hb]
            | Except.ok u => simpa [runHandlers, hb] using ih
        rw [handle_message, hl] at hres
        exact never hs hres
    · intro hl
      simp [handle_message, hl]
  · rfl

/-- Claim C8: A handler exception propagates to the caller wrapped as
`HandlerExecutionError`: the dispatcher performs no catch-and-continue, no
retry, and no buffering, and the handlers after the failing one in the
sequence are not run. -/
theorem handle_message_propagates_failure (cfg : MessageHandlersConfig)
    (behav : HandlerId → Except String Unit) (t : MessageType)
    (pre : List HandlerId) (h : HandlerId) (e : String)
    (rest : List HandlerId)
    (h1 : lookupHandlers t cfg = some (pre ++ h :: rest))
    (h2 : ∀ x ∈ pre, behav x = Except.ok ())
    (h3 : behav h = Except.error e) :
    handle_message cfg behav t
      = (pre ++ [h], Except.error (DispatchError.handlerExecution h e)) := by
  have main : ∀ p : List HandlerId, (∀ x ∈ p, behav x = Except.ok ()) →
      runHandlers behav (p ++ h :: rest)
        = (p ++ [h], Except.error (DispatchError.handlerExecution h e)) := by
    intro p
    induction p with
    | nil => intro _; simp [runHandlers, h3]
    | cons x xs ih =>
      intro hall
      have hx : behav x = Except.ok () := hall x (List.mem_cons_self ..)
      have hr := ih fun y hy => hall y (List.mem_cons_of_mem _ hy)
      simp [runHandlers, hx, hr]
  simp [handle_message, h1, main pre h2]

/-- Witness for C8: against the shipped table, a metrics dispatch whose
tensorboard handler raises runs the console handler, stops at the
tensorboard handler, wraps the exception as `HandlerExecutionError`, and
never reaches the mlflow handler. -/
theorem handle_message_propagates_failure_witness :
    handle_message LOG_MESSAGE_HANDLERS
        (fun x =>
          if x = HandlerId.log_metrics_to_tensorboard then Except.error "boom"
          else Except.ok ())
        MessageType.LogMetrics
      = ([HandlerId.log_metrics_to_console,
          HandlerId.log_metrics_to_tensorboard],
         Except.error (DispatchError.handlerExecution
           HandlerId.log_metrics_to_tensorboard "boom")) :=
  handle_message_propagates_failure LOG_MESSAGE_HANDLERS
    (fun x =>
      if x = HandlerId.log_metrics_to_tensorboard then Except.error "boom"
      else Except.ok ())
    MessageType.LogMetrics
    [HandlerId.log_metrics_to_console]
    HandlerId.log_metrics_to_tensorboard "boom"
    [HandlerId.log_metrics_to_mlflow]
    (by rfl)
    (by intro x hx; rw [List.mem_singleton] at hx; subst hx; rfl)
    (by rfl)

/-- Observable events of a training run, at the granularity the C9 ordering
property needs: the registry call `call_all_creators` (with the context it
was given) and dispatches of messages via `handle_message`.  Timestamps are
opaque `Nat` values. -/
inductive TrainerEvent
  | callAllCreators (trainingName : String) (trainingStartTime : Nat)
  | handleMessage (t : MessageType)
deriving DecidableEq

/-- Events of `Trainer.fit_epoch` (from `training/trainers.py`): dispatch
`LogEpoch`, then run `model.fit_epoch` — an external collaborator whose own
dispatches are abstracted as `modelEvents epoch`. -/
def fit_epoch_events (modelEvents : Nat → List TrainerEvent) (epoch : Nat) :
    List TrainerEvent :=
  TrainerEvent.handleMessage MessageType.LogEpoch :: modelEvents epoch

/-- The `for epoch in range(1, epochs + 1)` loop of `Trainer.fit`, epochs in
ascending order. -/
def epochLoopEvents (modelEvents : Nat → List TrainerEvent) :
    Nat → List TrainerEvent
  | 0 => []
  | n + 1 => epochLoopEvents modelEvents n ++ fit_epoch_events modelEvents (n + 1)

/-- Event trace of `Trainer.fit` (from `training/trainers.py`): first
`call_all_creators(training_name=self.name,
training_start_time=training_start_time)` on the registry, then the
`LogStart` dispatch, then the epoch loop, then the `LogModel` dispatch. -/
def fit_events (name : String) (startTime : Nat) (epochs : Nat)
    (modelEvents : Nat → List TrainerEvent) : List TrainerEvent :=
  TrainerEvent.callAllCreators name startTime
    :: TrainerEvent.handleMessage MessageType.LogStart
    :: (epochLoopEvents modelEvents epochs
        ++ [TrainerEvent.handleMessage MessageType.LogModel])

/-- Event trace of `Trainer.fit_profile` (from `training/trainers.py`): it
raises `ValueError` when `epochs < 2`, and otherwise issues the same
registry call and dispatches as `fit` (the profiler steps and the chrome
trace export produce no registry or dispatch events). -/
def fit_profile_events (name : String) (startTime : Nat) (epochs : Nat)
    (modelEvents : Nat → List TrainerEvent) :
    Except String (List TrainerEvent) :=
  if epochs < 2 then Except.error "Profiling requires at least two epochs!"
  else Except.ok (fit_events name startTime epochs modelEvents)

/-- Claim C9: In every execution of `Trainer.fit` (and of
`Trainer.fit_profile` that does not fail its epoch precondition),
`call_all_creators` is invoked with the training name and start timestamp as
context strictly before the first `handle_message` dispatch: it is the very
first event, and every dispatch event sits at a strictly later position. -/
theorem fit_creators_before_first_dispatch (name : String) (startTime : Nat)
    (epochs : Nat) (modelEvents : Nat → List TrainerEvent) :
    ((fit_events name startTime epochs modelEvents).head?
       = some (TrainerEvent.callAllCreators name startTime)) ∧
    (∀ i t, (fit_events name startTime epochs modelEvents)[i]?
        = some (TrainerEvent.handleMessage t) → 0 < i) ∧
    (∀ tr, fit_profile_events name startTime epochs modelEvents
        = Except.ok tr →
      tr.head? = some (TrainerEvent.callAllCreators name startTime) ∧
      ∀ i t, tr[i]? = some (TrainerEvent.handleMessage t) → 0 < i) := by
  have hhead : (fit_events name startTime epochs modelEvents).head?
      = some (TrainerEvent.callAllCreators name startTime) := rfl
  have hpos : ∀ i t, (fit_events name startTime epochs modelEvents)[i]?
      = some (TrainerEvent.handleMessage t) → 0 < i := by
    intro i t h
    match i with
    | 0 => simp [fit_events] at h
    | n + 1 => exact Nat.succ_pos n
  refine ⟨hhead, hpos, ?_⟩
  intro tr htr
  rw [fit_profile_events] at htr
  by_cases hlt : epochs < 2
  · rw [if_pos hlt] at htr
    exact absurd htr (by simp)
  · rw [if_neg hlt] at htr
    obtain rfl : fit_events name startTime epochs modelEvents = tr :=
      Except.ok.inj htr
    exact ⟨hhead, hpos⟩

/-- The mode tag of a metrics message, per the spec a member of
{training, validation}. -/
inductive Mode
  | training
  | validation
deriving DecidableEq

/-- Parse a raw mode tag, accepting exactly the two legal members. -/
def parseMode (s : String) : Option Mode :=
  if s = "training" then some Mode.training
  else if s = "validation" then some Mode.validation
  else none

/-- Modelled from the spec: the metrics message (`messages.LogMetrics`,
whose module is not among the provided sources) — an immutable record of a
non-empty ordered mapping of named numeric values, a mode tag, an epoch
counter, and a processed-sample counter.  Numeric metric values are
modelled as `Int`. -/
structure LogMetrics where
  values : List (String × Int)
  mode : Mode
  epoch : Nat
  n_processed_samples : Nat

/-- Modelled from the spec: construction of a metrics message validates the
field shapes — the value mapping must be non-empty, the raw mode tag must be
one of {training, validation}, the epoch counter must be at least 1, and the
processed-sample counter must not decrease below the previously dispatched
one (`prev`); any invalid shape is rejected. -/
def mkLogMetrics (values : List (String × Int)) (modeTag : String)
    (epoch : Nat) (prev : Nat) (n_processed_samples : Nat) :
    Option LogMetrics :=
  match parseMode modeTag with
  | none => none
  | some m =>
    if values.isEmpty then none
    else if epoch < 1 then none
    else if n_processed_samples < prev then none
    else some { values := values, mode := m, epoch := epoch,
                n_processed_samples := n_processed_samples }

/-- Claim C10: Construction of a metrics message succeeds exactly when the
fields have the specified shapes: a non-empty value mapping, a mode tag in
{training, validation}, an epoch counter at least 1, and a processed-sample
counter that has not decreased; invalid shapes are rejected at construction
time. -/
theorem mkLogMetrics_validates_shapes (values : List (String × Int))
    (modeTag : String) (epoch prev n : Nat) :
    (mkLogMetrics values modeTag epoch prev n).isSome = true ↔
      (values ≠ [] ∧ (modeTag = "training" ∨ modeTag = "validation") ∧
        1 ≤ epoch ∧ prev ≤ n) := by
  match hpm : parseMode modeTag with
  | none =>
    have hm : ¬(modeTag = "training" ∨ modeTag = "validation") := by
      intro h
      rcases h with h | h <;> simp [parseMode, h] at hpm
    simp [mkLogMetrics, hpm, hm]
  | some m =>
    have hm : modeTag = "training" ∨ modeTag = "validation" := by
      by_cases h1 : modeTag = "training"
      · exact Or.inl h1
      · by_cases h2 : modeTag = "validation"
        · exact Or.inr h2
        · simp [parseMode, h1, h2] at hpm
    simp only [mkLogMetrics, hpm]
    by_cases hv : values.isEmpty
    · rw [if_pos hv]
      simp [List.isEmpty_iff.1 hv, hm]
    · rw [if_neg hv]
      by_cases he : epoch < 1
      · rw [if_pos he]
        simp [hm]
        omega
      · rw [if_neg he]
        by_cases hn : n < prev
        · rw [if_pos hn]
          simp [hm]
          omega
        · rw [if_neg hn]
          simp [hm, List.isEmpty_iff] at hv ⊢
          exact ⟨hv, by omega⟩

end Luna16
